import Mathlib

/-!
Verification development for the CasparCG server core: the ffmpeg packet-queue
video decoder (`video_decoder::impl`), the legacy software-conversion video
decoder (`video_decoder::implementation` with `get_pixel_format` /
`get_pixel_format_desc`), and the mixer orchestrator (`mixer::impl` and
`mixed_frame`).  Each C++ structure and member function is shallowly embedded
as a Lean structure and function; external collaborators (the libavcodec
backend, libswscale, the audio/image mixers, the GPU accelerator) are
parameters supplied at each call, matching the boundary described in the
design documents.
-/

namespace Caspar

/-- Truncating cast of a C++ signed 64-bit value to `uint32_t`
(`static_cast<uint32_t>(x)`). -/
def u32 (i : Int) : Nat := (i % (2 ^ 32 : Int)).toNat

namespace FFmpeg

/-- An `AVPacket` as the decoder sees it: owning stream index, optional
payload (`data == nullptr` encoded as `none`, the end-of-stream marker),
and presentation timestamp `pts` (an `int64_t`). -/
structure AVPacket where
  streamIndex : Int
  payload : Option (List Nat)
  pts : Int
deriving DecidableEq, Repr

/-- The slice of the libavcodec codec context the decoder inspects:
the `CODEC_CAP_DELAY` capability bit, plus an observable flag recording
that `avcodec_flush_buffers` has been called (reset of the codec's
internal buffers). -/
structure CodecContext where
  capDelay : Bool
  flushed : Bool
deriving DecidableEq, Repr

/-- The fields of a decoded `AVFrame` that `video_decoder::impl::decode`
reads from the backend. -/
structure RawFrame where
  interlaced : Bool
  topFieldFirst : Bool
  repeatPict : Nat
deriving DecidableEq, Repr

/-- One call to `avcodec_decode_video2` is an external event: it errors
(negative return), finishes no picture (`frame_finished == 0`), or yields
a picture. -/
inductive DecodeResult
  | err : DecodeResult
  | noFrame : DecodeResult
  | frame : RawFrame → DecodeResult
deriving DecidableEq, Repr

/-- Error surfaced by `THROW_ON_ERROR2` around `avcodec_decode_video2`. -/
inductive DecErr
  | decode_failed : DecErr
deriving DecidableEq, Repr

/-- The frame `decode` hands back: pts stamped from the packet, plus the
interlace metadata copied from the backend's picture. -/
structure VideoFrame where
  pts : Nat
  interlaced : Bool
  topFieldFirst : Bool
deriving DecidableEq, Repr

/-- What `poll()` returns through its `shared_ptr<AVFrame>`: the flush
marker frame (`flush_video()`), the empty marker frame (`empty_video()`),
or an actually decoded frame. A null pointer is `Option.none` one level up. -/
inductive PollFrame
  | flush : PollFrame
  | empty : PollFrame
  | decoded : VideoFrame → PollFrame
deriving DecidableEq, Repr

/-- State of `video_decoder::impl`: stream index, optional codec context
(the default constructor has none), FIFO packet queue (front at the head),
the container's nominal `nb_frames` estimate, progressive flag, and the
frame number of the last decoded packet. -/
structure DecoderImpl where
  index : Int
  codecContext : Option CodecContext
  packets : List AVPacket
  nbFrames : Nat
  isProgressive : Bool
  fileFrameNumber : Nat
deriving DecidableEq, Repr

/-- `video_decoder::impl::push`: a null pointer returns at once; otherwise
the packet is enqueued iff its stream index matches the decoder's, or its
payload is absent. -/
def push (d : DecoderImpl) (packet : Option AVPacket) : DecoderImpl :=
  match packet with
  | none => d
  | some p =>
      if p.streamIndex = d.index ∨ p.payload = none then
        { d with packets := d.packets ++ [p] }
      else
        d

/-- `video_decoder::impl::decode`: runs one backend decode call on `pkt`.
On backend error the exception propagates with the state untouched; when no
picture is finished, `nullptr` is returned and nothing is recorded; on a
picture, the progressive flag is updated, `file_frame_number_` is stamped
from the packet pts (truncated to `uint32_t`), and the frame carries that
pts. -/
def decode (d : DecoderImpl) (pkt : AVPacket) (br : DecodeResult) :
    Except DecErr (Option VideoFrame) × DecoderImpl :=
  match br with
  | .err => (.error .decode_failed, d)
  | .noFrame => (.ok none, d)
  | .frame f =>
      let ffn := u32 pkt.pts
      (.ok (some ⟨ffn, f.interlaced, f.topFieldFirst⟩),
       { d with isProgressive := !f.interlaced, fileFrameNumber := ffn })

/-- `video_decoder::impl::poll`.  Empty queue yields nothing.  Without a
codec context the front packet is popped and a flush (marker) or empty
(payload) frame is emitted.  With a codec context: a front end-of-stream
marker first attempts a drain decode when `CODEC_CAP_DELAY` is declared,
returning any yielded frame without popping; otherwise the marker is
popped, `avcodec_flush_buffers` resets the codec, and the flush frame is
returned.  A payload packet is popped and decoded synchronously. -/
def poll (d : DecoderImpl) (br : DecodeResult) :
    Except DecErr (Option PollFrame) × DecoderImpl :=
  match d.packets with
  | [] => (.ok none, d)
  | packet :: rest =>
      match d.codecContext with
      | none =>
          (.ok (some (if packet.payload = none then .flush else .empty)),
           { d with packets := rest })
      | some ctx =>
          if packet.payload = none then
            if ctx.capDelay then
              match decode d packet br with
              | (.error e, d') => (.error e, d')
              | (.ok (some v), d') => (.ok (some (.decoded v)), d')
              | (.ok none, d') =>
                  (.ok (some .flush),
                   { d' with packets := rest,
                             codecContext := some { ctx with flushed := true } })
            else
              (.ok (some .flush),
               { d with packets := rest,
                        codecContext := some { ctx with flushed := true } })
          else
            match decode { d with packets := rest } packet br with
            | (.error e, d') => (.error e, d')
            | (.ok none, d') => (.ok none, d')
            | (.ok (some v), d') => (.ok (some (.decoded v)), d')

/-- `video_decoder::impl::ready`. -/
def ready (d : DecoderImpl) : Bool := !d.packets.isEmpty

/-- `video_decoder::impl::clear`. -/
def clear (d : DecoderImpl) : DecoderImpl := { d with packets := [] }

/-- `video_decoder::impl::nb_frames`:
`std::max<uint32_t>(nb_frames_, file_frame_number_)`. -/
def nb_frames (d : DecoderImpl) : Nat := max d.nbFrames d.fileFrameNumber

/-- Queue invariant: every queued packet belongs to this decoder's stream
or is an end-of-stream marker. -/
def queueOK (d : DecoderImpl) : Prop :=
  ∀ p ∈ d.packets, p.streamIndex = d.index ∨ p.payload = none

end FFmpeg

namespace OldCore

/-- A native libavcodec `PixelFormat` value: the ten formats the resolver
recognises, plus every other code. -/
inductive PixFmt
  | bgra | argb | rgba | abgr
  | yuv444p | yuv422p | yuv420p | yuv411p | yuv410p | yuva420p
  | other (code : Int)
deriving DecidableEq, Repr

/-- `caspar::core::pixel_format::type`. -/
inductive pixel_format
  | bgra | argb | rgba | abgr | ycbcr | ycbcra | invalid
deriving DecidableEq, Repr

/-- `get_pixel_format`: pure lookup from the native format to the canonical
one; anything unrecognised maps to `invalid`. -/
def get_pixel_format : PixFmt → pixel_format
  | .bgra => .bgra
  | .argb => .argb
  | .rgba => .rgba
  | .abgr => .abgr
  | .yuv444p => .ycbcr
  | .yuv422p => .ycbcr
  | .yuv420p => .ycbcr
  | .yuv411p => .ycbcr
  | .yuv410p => .ycbcr
  | .yuva420p => .ycbcra
  | .other _ => .invalid

/-- Horizontal chroma subsampling shift of the planar formats
(ffmpeg's `log2_chroma_w`); 0 for the packed formats. -/
def log2ChromaW : PixFmt → Nat
  | .yuv422p | .yuv420p | .yuva420p => 1
  | .yuv411p | .yuv410p => 2
  | _ => 0

/-- Vertical chroma subsampling shift (ffmpeg's `log2_chroma_h`). -/
def log2ChromaH : PixFmt → Nat
  | .yuv420p | .yuva420p => 1
  | .yuv410p => 2
  | _ => 0

/-- The fields of the `AVPicture` that `get_pixel_format_desc` reads after
`avpicture_fill(&dummy_pict, nullptr, pix_fmt, width, height)`: the four
linesizes and the byte distance `data[2] - data[1]` (the size of one chroma
plane).  Modelled after ffmpeg's fill for the formats the resolver
supports: packed 32-bit RGB has `linesize[0] = 4 * width`; a planar YCbCr
format has a full-width luma line, chroma lines of width
`ceil(width / 2 ^ log2_chroma_w)`, a chroma plane of
`ceil(height / 2 ^ log2_chroma_h)` such lines, and (with alpha) a
full-width plane 3. -/
structure FilledPicture where
  linesize0 : Nat
  linesize1 : Nat
  linesize2 : Nat
  linesize3 : Nat
  chromaPlaneSize : Nat
deriving DecidableEq, Repr

/-- `avpicture_fill` on a null buffer, restricted to what the caller reads. -/
def avpicture_fill (pix_fmt : PixFmt) (width height : Nat) : FilledPicture :=
  match get_pixel_format pix_fmt with
  | .bgra | .argb | .rgba | .abgr =>
      { linesize0 := 4 * width, linesize1 := 0, linesize2 := 0,
        linesize3 := 0, chromaPlaneSize := 0 }
  | .ycbcr | .ycbcra =>
      let w2 := (width + 2 ^ log2ChromaW pix_fmt - 1) / 2 ^ log2ChromaW pix_fmt
      let h2 := (height + 2 ^ log2ChromaH pix_fmt - 1) / 2 ^ log2ChromaH pix_fmt
      { linesize0 := width, linesize1 := w2, linesize2 := w2,
        linesize3 := if get_pixel_format pix_fmt = .ycbcra then width else 0,
        chromaPlaneSize := w2 * h2 }
  | .invalid =>
      { linesize0 := 0, linesize1 := 0, linesize2 := 0,
        linesize3 := 0, chromaPlaneSize := 0 }

/-- `pixel_format_desc::plane(width, height, channels)`. -/
structure Plane where
  width : Nat
  height : Nat
  channels : Nat
deriving DecidableEq, Repr

/-- `caspar::core::pixel_format_desc`. -/
structure pixel_format_desc where
  pix_fmt : pixel_format
  planes : List Plane
deriving DecidableEq, Repr

/-- `get_pixel_format_desc`: fills a dummy picture to obtain linesizes,
then builds the plane list: one `(linesize0 / 4, height, 4)` plane for the
packed RGB family; for planar YCbCr a full luma plane plus two chroma
planes whose height is recovered from `(data[2] - data[1]) / linesize[1]`,
plus a full-height plane 3 with alpha; unsupported formats yield an
`invalid` descriptor with no planes. -/
def get_pixel_format_desc (pix_fmt : PixFmt) (width height : Nat) :
    pixel_format_desc :=
  let dummy_pict := avpicture_fill pix_fmt width height
  let fmt := get_pixel_format pix_fmt
  match fmt with
  | .bgra | .argb | .rgba | .abgr =>
      { pix_fmt := fmt,
        planes := [⟨dummy_pict.linesize0 / 4, height, 4⟩] }
  | .ycbcr | .ycbcra =>
      let size2 := dummy_pict.chromaPlaneSize
      let h2 := size2 / dummy_pict.linesize1
      let base : List Plane :=
        [⟨dummy_pict.linesize0, height, 1⟩,
         ⟨dummy_pict.linesize1, h2, 1⟩,
         ⟨dummy_pict.linesize2, h2, 1⟩]
      { pix_fmt := fmt,
        planes :=
          if fmt = .ycbcra then base ++ [⟨dummy_pict.linesize3, height, 1⟩]
          else base }
  | .invalid => { pix_fmt := .invalid, planes := [] }

/-- Codec identifier: the legacy DV family (`CODEC_ID_DVVIDEO`) or any
other codec. -/
inductive CodecId
  | dvvideo
  | other (code : Int)
deriving DecidableEq, Repr

/-- `video_mode::type` as far as the decoder reads it: the check is
against `video_mode::upper`. -/
inductive VideoMode
  | progressive | upper | lower
deriving DecidableEq, Repr

/-- Construction failures of `video_decoder::implementation`:
`file_read_error` carries the offending frame time
(`arg_value_info(frame_time)`); `operation_failed` is the
`sws_getContext` failure. -/
inductive ConstructError
  | file_read_error (frameTime : ℚ)
  | operation_failed
deriving DecidableEq, Repr

/-- State of `video_decoder::implementation` after construction. -/
structure Implementation where
  codecId : CodecId
  width : Nat
  height : Nat
  pixFmt : PixFmt
  desc : pixel_format_desc
  usesSws : Bool
  mode : VideoMode
  fps : ℚ
deriving DecidableEq, Repr

/-- The constructor of `video_decoder::implementation`: computes the
stream frame time `time_base.num / time_base.den` and the target frame
time `1 / fps`; a difference beyond `0.0001` raises `file_read_error`
carrying the frame time.  Otherwise, an `invalid` pixel descriptor
switches to the software conversion path (descriptor recomputed for BGRA,
a scaling context created — `operation_failed` when that yields null). -/
def mkImplementation (codecId : CodecId) (timeBaseNum timeBaseDen : Int)
    (pixFmt : PixFmt) (width height : Nat) (fps : ℚ) (mode : VideoMode)
    (swsAvailable : Bool) : Except ConstructError Implementation :=
  let frame_time : ℚ := (timeBaseNum : ℚ) / (timeBaseDen : ℚ)
  let format_frame_time : ℚ := 1 / fps
  if |frame_time - format_frame_time| > 1 / 10000 then
    .error (.file_read_error frame_time)
  else
    let desc := get_pixel_format_desc pixFmt width height
    if desc.pix_fmt = .invalid then
      if swsAvailable then
        .ok { codecId, width, height, pixFmt,
              desc := get_pixel_format_desc .bgra width height,
              usesSws := true, mode, fps }
      else
        .error .operation_failed
    else
      .ok { codecId, width, height, pixFmt, desc, usesSws := false,
            mode, fps }

/-- The planes of a decoded `AVFrame` as raw byte lists with their
linesizes, as produced by the backend decode call. -/
structure OldRawFrame where
  data : List (List Nat)
  linesize : List Nat
deriving DecidableEq, Repr

/-- Error raised by `execute` when `avcodec_decode_video` fails. -/
inductive ExecError
  | invalid_operation
deriving DecidableEq, Repr

/-- The produced `write_frame`: its image planes and the image transform's
translation (the pair set by `set_image_translation`, default `(0, 0)`). -/
structure WriteFrame where
  imageData : List (List Nat)
  translationX : ℚ
  translationY : ℚ
deriving DecidableEq, Repr

/-- The per-plane scanline copy of `execute`'s direct path: for each
`y < height`, `plane.linesize` bytes are copied from offset
`y * decoded_linesize` of the decoded plane to offset `y * plane.linesize`
of the (contiguously laid out) target plane. -/
def copyPlane (src : List Nat) (srcLinesize dstLinesize height : Nat) :
    List Nat :=
  (List.range height).flatMap fun y =>
    (src.drop (y * srcLinesize)).take dstLinesize

/-- `video_decoder::implementation::execute`: decodes the packet
(`invalid_operation` on backend error), then either copies each plane
scanline by scanline (direct path) or converts into a single packed BGRA
buffer through the scaling context (`swsScale` stands for `sws_scale`);
finally, the DV-codec/upper-field special case translates the image by
`(0, 1 / height)`. -/
def execute (impl : Implementation) (br : Except Unit OldRawFrame)
    (swsScale : OldRawFrame → List Nat) : Except ExecError WriteFrame :=
  match br with
  | .error _ => .error .invalid_operation
  | .ok decoded_frame =>
      let imageData : List (List Nat) :=
        if impl.usesSws = false then
          (List.range impl.desc.planes.length).map fun n =>
            let plane := impl.desc.planes.getD n ⟨0, 0, 0⟩
            copyPlane (decoded_frame.data.getD n [])
              (decoded_frame.linesize.getD n 0)
              (plane.width * plane.channels) plane.height
        else
          [swsScale decoded_frame]
      let write : WriteFrame := ⟨imageData, 0, 0⟩
      if impl.codecId = .dvvideo ∧ impl.mode = .upper then
        .ok { write with translationX := 0,
                         translationY := 1 / (impl.height : ℚ) }
      else
        .ok write

end OldCore

namespace Core

open OldCore (Plane)

/-- `caspar::core::blend_mode`: the default `normal` operator or any other
compositing operator. -/
inductive blend_mode
  | normal
  | other (code : Nat)
deriving DecidableEq, Repr

/-- `caspar::core::video_format_desc` as the mixer reads it. -/
structure video_format_desc where
  width : Nat
  height : Nat
  fps : ℚ
deriving DecidableEq, Repr

/-- `caspar::core::audio_buffer`. -/
abbrev audio_buffer := List Int

/-- The mixer's `pixel_format_desc` (same shape as the decoder's): the
canonical format tag plus the plane list. -/
structure mixer_pixel_desc where
  fmt : OldCore.pixel_format
  planes : List Plane
deriving DecidableEq, Repr

/-- Errors signalled by `mixed_frame`'s accessors. -/
inductive MixError
  | invalid_operation
deriving DecidableEq, Repr

/-- `caspar::core::mixed_frame`: producer tag (the orchestrator's
identity), the deferred image payload (an opaque future handle), the
fully-resolved audio buffer, the video format, and the BGRA pixel
descriptor built in the constructor. -/
structure mixed_frame where
  tag : Nat
  imageFuture : Nat
  audio : audio_buffer
  videoDesc : video_format_desc
  pixelDesc : mixer_pixel_desc
deriving DecidableEq, Repr

/-- The `mixed_frame` constructor: stores tag, image future, audio and
format, and pushes one `(width, height, 4)` BGRA plane onto the pixel
descriptor. -/
def mkMixedFrame (tag imageFuture : Nat) (audio : audio_buffer)
    (format_desc : video_format_desc) : mixed_frame :=
  { tag, imageFuture, audio, videoDesc := format_desc,
    pixelDesc :=
      { fmt := .bgra,
        planes := [⟨format_desc.width, format_desc.height, 4⟩] } }

/-- The non-const `mixed_frame::image_data(int)` override: it throws
`invalid_operation` unconditionally, so no mutated frame is ever
produced. -/
def mixed_frame.image_data_mut (f : mixed_frame) (index : Int) :
    Except MixError (List Nat × mixed_frame) :=
  .error .invalid_operation

/-- The non-const `mixed_frame::audio_data()` override: it throws
`invalid_operation` unconditionally. -/
def mixed_frame.audio_data_mut (f : mixed_frame) :
    Except MixError (audio_buffer × mixed_frame) :=
  .error .invalid_operation

/-- The const `mixed_frame::audio_data()` accessor. -/
def mixed_frame.audio_data_const (f : mixed_frame) : audio_buffer :=
  f.audio

/-- The external collaborators of one mixer tick, over image-mixer state
`σ`, audio-mixer state `τ` and exception type `ε`.  Each operation may
throw, and even a throwing operation may have mutated its collaborator's
state, as in the C++. -/
structure MixerOps (σ τ ε : Type) where
  begin_layer : blend_mode → σ → Except ε Unit × σ
  accept_audio : Nat → τ → Except ε Unit × τ
  accept_image : Nat → σ → Except ε Unit × σ
  end_layer : σ → Except ε Unit × σ
  mix_image : video_format_desc → σ → Except ε Nat × σ
  mix_audio : video_format_desc → τ → Except ε audio_buffer × τ

/-- `blend_modes_.find(index)` on the layer → blend-mode table. -/
def findBlendMode : List (Int × blend_mode) → Int → Option blend_mode
  | [], _ => none
  | (k, v) :: rest, i => if k = i then some v else findBlendMode rest i

/-- The body of `mixer::impl::set_blend_mode`'s queued task: insert when
the index is absent, otherwise overwrite the mapped value. -/
def set_blend_mode_table (bm : List (Int × blend_mode)) (index : Int)
    (value : blend_mode) : List (Int × blend_mode) :=
  match findBlendMode bm index with
  | none => bm ++ [(index, value)]
  | some _ => bm.map fun p => if p.1 = index then (p.1, value) else p

/-- The `BOOST_FOREACH` loop of `mixer::impl::operator()`: for each layer
in ascending index order, resolve its blend mode (table hit or `normal`),
bracket the image mixer (`begin_layer` … `end_layer`) and feed the frame
to both mixers.  The first exception aborts the loop, keeping the
collaborator states reached so far. -/
def visitLayers {σ τ ε : Type} (ops : MixerOps σ τ ε)
    (bm : List (Int × blend_mode)) :
    List (Int × Nat) → σ → τ → Except ε Unit × σ × τ
  | [], s, t => (.ok (), s, t)
  | (index, frame) :: rest, s, t =>
      let mode := (findBlendMode bm index).getD .normal
      match ops.begin_layer mode s with
      | (.error e, s') => (.error e, s', t)
      | (.ok _, s1) =>
          match ops.accept_audio frame t with
          | (.error e, t') => (.error e, s1, t')
          | (.ok _, t1) =>
              match ops.accept_image frame s1 with
              | (.error e, s') => (.error e, s', t1)
              | (.ok _, s2) =>
                  match ops.end_layer s2 with
                  | (.error e, s') => (.error e, s', t1)
                  | (.ok _, s3) => visitLayers ops bm rest s3 t1

/-- The `try` block of `mixer::impl::operator()`: visit all layers, then
finalize the image mixer and the audio mixer and build the `mixed_frame`
tagged with the orchestrator's identity.  Any exception escapes to the
caller of this body with the collaborator states it left behind. -/
def tickBody {σ τ ε : Type} (ops : MixerOps σ τ ε)
    (bm : List (Int × blend_mode)) (frames : List (Int × Nat))
    (format_desc : video_format_desc) (tag : Nat) (s : σ) (t : τ) :
    Except ε mixed_frame × σ × τ :=
  match visitLayers ops bm frames s t with
  | (.error e, s1, t1) => (.error e, s1, t1)
  | (.ok _, s1, t1) =>
      match ops.mix_image format_desc s1 with
      | (.error e, s2) => (.error e, s2, t1)
      | (.ok image, s2) =>
          match ops.mix_audio format_desc t1 with
          | (.error e, t2) => (.error e, s2, t2)
          | (.ok audio, t2) =>
              (.ok (mkMixedFrame tag image audio format_desc), s2, t2)

/-- State owned by `mixer::impl` and threaded through its serialized
executor: the blend-mode table, the orchestrator's identity tag, and the
image/audio mixers' states. -/
structure MixerImplState (σ τ : Type) where
  blend_modes : List (Int × blend_mode)
  tag : Nat
  im : σ
  au : τ
deriving Repr

/-- What one `operator()` tick hands downstream: the composed frame or
`data_frame::empty()`. -/
inductive tick_frame
  | empty
  | mixed (f : mixed_frame)
deriving DecidableEq, Repr

/-- `mixer::impl::operator()` as executed on the serialized queue: run the
tick body; on success return the mixed frame, and on any exception log it
and return the empty data frame.  The blend-mode table is only read. -/
def mixer_invoke {σ τ ε : Type} (ops : MixerOps σ τ ε)
    (st : MixerImplState σ τ) (frames : List (Int × Nat))
    (format_desc : video_format_desc) :
    tick_frame × MixerImplState σ τ :=
  match tickBody ops st.blend_modes frames format_desc st.tag st.im st.au with
  | (.ok f, s, t) => (.mixed f, { st with im := s, au := t })
  | (.error _, s, t) => (.empty, { st with im := s, au := t })

/-- `mixer::impl::set_blend_mode` as executed on the serialized queue
(priority task): updates only the blend-mode table. -/
def mixer_set_blend_mode {σ τ : Type} (st : MixerImplState σ τ)
    (index : Int) (value : blend_mode) : MixerImplState σ τ :=
  { st with blend_modes := set_blend_mode_table st.blend_modes index value }

end Core

namespace FFmpeg

/-- The state `poll` leaves behind: the nominal estimate is never written,
and the last-decoded frame number is either untouched or stamped from the
pts of a queued packet. -/
theorem poll_state_fields (d : DecoderImpl) (br : DecodeResult) :
    (poll d br).2.nbFrames = d.nbFrames ∧
    ((poll d br).2.fileFrameNumber = d.fileFrameNumber ∨
      ∃ p ∈ d.packets, (poll d br).2.fileFrameNumber = u32 p.pts) := by
  obtain ⟨idx, cc, pkts, nb, prog, ffn⟩ := d
  cases pkts with
  | nil => simp [poll]
  | cons p rest =>
      cases cc with
      | none => simp [poll]
      | some ctx =>
          by_cases hp : p.payload = none
          · by_cases hcap : ctx.capDelay = true
            · cases br with
              | err => simp [poll, decode, hp, hcap]
              | noFrame => simp [poll, decode, hp, hcap]
              | frame f =>
                  refine ⟨by simp [poll, decode, hp, hcap], Or.inr ⟨p, ?_, ?_⟩⟩
                  · exact List.mem_cons_self p rest
                  · simp [poll, decode, hp, hcap]
            · simp [poll, decode, hp, hcap]
          · cases br with
            | err => simp [poll, decode, hp]
            | noFrame => simp [poll, decode, hp]
            | frame f =>
                refine ⟨by simp [poll, decode, hp], Or.inr ⟨p, ?_, ?_⟩⟩
                · exact List.mem_cons_self p rest
                · simp [poll, decode, hp]

/-- C1 (amended): `nb_frames()` never drops below the container's nominal
estimate; `push` leaves it unchanged; a poll never changes the nominal
estimate, and across a poll `nb_frames()` is non-decreasing provided every
queued packet's 32-bit pts is at least the current last-decoded frame
number (in particular, when packets are decoded with non-decreasing pts). -/
theorem nb_frames_progress_amended (d : DecoderImpl) (br : DecodeResult)
    (r : Except DecErr (Option PollFrame)) (d' : DecoderImpl) :
    (d.nbFrames ≤ nb_frames d) ∧
    (∀ op, nb_frames (push d op) = nb_frames d) ∧
    (poll d br = (r, d') →
      d'.nbFrames = d.nbFrames ∧
      ((∀ p ∈ d.packets, d.fileFrameNumber ≤ u32 p.pts) →
        nb_frames d ≤ nb_frames d')) := by
  refine ⟨Nat.le_max_left _ _, ?_, ?_⟩
  · intro op
    cases op with
    | none => rfl
    | some p =>
        show nb_frames
          (if p.streamIndex = d.index ∨ p.payload = none then
            { d with packets := d.packets ++ [p] } else d) = nb_frames d
        split <;> rfl
  · intro hpoll
    have h := poll_state_fields d br
    have hd2 : (poll d br).2 = d' := by rw [hpoll]
    rw [hd2] at h
    refine ⟨h.1, fun hmono => ?_⟩
    rcases h.2 with hsame | ⟨p, hmem, hstamp⟩
    · simp [nb_frames, h.1, hsame]
    · have hffn : d.fileFrameNumber ≤ d'.fileFrameNumber := by
        rw [hstamp]; exact hmono p hmem
      simp only [nb_frames, h.1]
      exact max_le_max (le_refl _) hffn

/-- Witness for the amended C1 theorem at a concrete decoder state. -/
theorem nb_frames_progress_amended_witness :
    nb_frames
        (poll { index := 0, codecContext := some ⟨true, false⟩,
                packets := [⟨0, some [1], 7⟩], nbFrames := 3,
                isProgressive := true,
                fileFrameNumber := 5 : DecoderImpl }
          (.frame ⟨false, false, 0⟩)).2 ≥
      nb_frames { index := 0, codecContext := some ⟨true, false⟩,
                  packets := [⟨0, some [1], 7⟩], nbFrames := 3,
                  isProgressive := true,
                  fileFrameNumber := 5 : DecoderImpl } := by
  have h := nb_frames_progress_amended
    { index := 0, codecContext := some ⟨true, false⟩,
      packets := [⟨0, some [1], 7⟩], nbFrames := 3,
      isProgressive := true, fileFrameNumber := 5 }
    (.frame ⟨false, false, 0⟩)
    (.ok (some (.decoded ⟨7, false, false⟩)))
    { index := 0, codecContext := some ⟨true, false⟩,
      packets := [], nbFrames := 3,
      isProgressive := true, fileFrameNumber := 7 }
  exact (h.2.2 rfl).2 (by decide)

/-- C1 counterexample: with out-of-order presentation timestamps a poll
makes a later `nb_frames()` result strictly smaller than an earlier one
(5, then 2), because `decode` records the last decoded pts, not the
highest. Both polls succeed and return decoded frames. -/
theorem nb_frames_not_monotone_cex :
    (poll { index := 0, codecContext := some ⟨false, false⟩,
            packets := [⟨0, some [1], 5⟩, ⟨0, some [1], 2⟩], nbFrames := 0,
            isProgressive := true, fileFrameNumber := 0 : DecoderImpl }
        (.frame ⟨false, false, 0⟩)).1 =
      .ok (some (.decoded ⟨5, false, false⟩)) ∧
    nb_frames
        (poll { index := 0, codecContext := some ⟨false, false⟩,
                packets := [⟨0, some [1], 5⟩, ⟨0, some [1], 2⟩],
                nbFrames := 0, isProgressive := true,
                fileFrameNumber := 0 : DecoderImpl }
          (.frame ⟨false, false, 0⟩)).2 = 5 ∧
    (poll (poll { index := 0, codecContext := some ⟨false, false⟩,
                  packets := [⟨0, some [1], 5⟩, ⟨0, some [1], 2⟩],
                  nbFrames := 0, isProgressive := true,
                  fileFrameNumber := 0 : DecoderImpl }
            (.frame ⟨false, false, 0⟩)).2
        (.frame ⟨false, false, 0⟩)).1 =
      .ok (some (.decoded ⟨2, false, false⟩)) ∧
    nb_frames
        (poll (poll { index := 0, codecContext := some ⟨false, false⟩,
                      packets := [⟨0, some [1], 5⟩, ⟨0, some [1], 2⟩],
                      nbFrames := 0, isProgressive := true,
                      fileFrameNumber := 0 : DecoderImpl }
                (.frame ⟨false, false, 0⟩)).2
          (.frame ⟨false, false, 0⟩)).2 = 2 := by
  refine ⟨rfl, by decide, rfl, by decide⟩

/-- C2: polling with an end-of-stream marker at the front of the queue.
With `CODEC_CAP_DELAY` declared, a drain decode that yields a picture
returns it without popping the marker; a drain that yields nothing — or a
codec without the capability — pops the marker, resets the codec buffers
(`avcodec_flush_buffers`) and returns the flush frame. -/
theorem poll_eos_drain (d : DecoderImpl) (ctx : CodecContext)
    (marker : AVPacket) (rest : List AVPacket)
    (hctx : d.codecContext = some ctx) (hq : d.packets = marker :: rest)
    (hm : marker.payload = none) :
    (∀ f : RawFrame, ctx.capDelay = true →
      poll d (.frame f) =
        (.ok (some (.decoded ⟨u32 marker.pts, f.interlaced, f.topFieldFirst⟩)),
         { d with isProgressive := !f.interlaced,
                  fileFrameNumber := u32 marker.pts })) ∧
    (ctx.capDelay = true →
      poll d .noFrame =
        (.ok (some .flush),
         { d with packets := rest,
                  codecContext := some { ctx with flushed := true } })) ∧
    (ctx.capDelay = false → ∀ br : DecodeResult,
      poll d br =
        (.ok (some .flush),
         { d with packets := rest,
                  codecContext := some { ctx with flushed := true } })) := by
  obtain ⟨idx, cc, pkts, nb, prog, ffn⟩ := d
  dsimp only at hctx hq
  subst hctx hq
  refine ⟨?_, ?_, ?_⟩
  · intro f hcap
    simp [poll, decode, hm, hcap]
  · intro hcap
    simp [poll, decode, hm, hcap]
  · intro hcap br
    simp [poll, decode, hm, hcap]

/-- Witness for the C2 theorem at concrete decoder states, exercising the
drain-yields-a-frame, drain-yields-nothing and no-capability branches. -/
theorem poll_eos_drain_witness :
    (poll { index := 0, codecContext := some ⟨true, false⟩,
            packets := [⟨0, none, 9⟩], nbFrames := 0, isProgressive := true,
            fileFrameNumber := 0 : DecoderImpl }
        (.frame ⟨true, true, 0⟩) =
      (.ok (some (.decoded ⟨9, true, true⟩)),
       { index := 0, codecContext := some ⟨true, false⟩,
         packets := [⟨0, none, 9⟩], nbFrames := 0, isProgressive := false,
         fileFrameNumber := 9 })) ∧
    (poll { index := 0, codecContext := some ⟨true, false⟩,
            packets := [⟨0, none, 9⟩], nbFrames := 0, isProgressive := true,
            fileFrameNumber := 0 : DecoderImpl }
        .noFrame =
      (.ok (some .flush),
       { index := 0, codecContext := some ⟨true, true⟩, packets := [],
         nbFrames := 0, isProgressive := true, fileFrameNumber := 0 })) ∧
    (poll { index := 0, codecContext := some ⟨false, false⟩,
            packets := [⟨0, none, 9⟩], nbFrames := 0, isProgressive := true,
            fileFrameNumber := 0 : DecoderImpl }
        .err =
      (.ok (some .flush),
       { index := 0, codecContext := some ⟨false, true⟩, packets := [],
         nbFrames := 0, isProgressive := true, fileFrameNumber := 0 })) := by
  refine ⟨?_, ?_, ?_⟩
  · have h := poll_eos_drain
      { index := 0, codecContext := some ⟨true, false⟩,
        packets := [⟨0, none, 9⟩], nbFrames := 0, isProgressive := true,
        fileFrameNumber := 0 } ⟨true, false⟩ ⟨0, none, 9⟩ [] rfl rfl rfl
    exact h.1 ⟨true, true, 0⟩ rfl
  · have h := poll_eos_drain
      { index := 0, codecContext := some ⟨true, false⟩,
        packets := [⟨0, none, 9⟩], nbFrames := 0, isProgressive := true,
        fileFrameNumber := 0 } ⟨true, false⟩ ⟨0, none, 9⟩ [] rfl rfl rfl
    exact h.2.1 rfl
  · have h := poll_eos_drain
      { index := 0, codecContext := some ⟨false, false⟩,
        packets := [⟨0, none, 9⟩], nbFrames := 0, isProgressive := true,
        fileFrameNumber := 0 } ⟨false, false⟩ ⟨0, none, 9⟩ [] rfl rfl rfl
    exact h.2.2 rfl .err

/-- C4: `push` enqueues a packet iff it belongs to this decoder's stream
or its payload is absent; otherwise the state is unchanged. The queue
invariant that every queued packet is own-stream or a marker is preserved
by every `push`, and consequently a payload-carrying packet at the front
of a well-formed queue — the only packet a frame-yielding `poll` can have
popped and decoded — always belongs to this decoder's stream. -/
theorem push_stream_filter (d : DecoderImpl) (p : AVPacket) :
    (p.streamIndex = d.index ∨ p.payload = none →
      push d (some p) = { d with packets := d.packets ++ [p] }) ∧
    (¬(p.streamIndex = d.index ∨ p.payload = none) → push d (some p) = d) ∧
    (∀ op, queueOK d → queueOK (push d op)) ∧
    (queueOK d → ∀ (pk : AVPacket) (rest : List AVPacket)
        (br : DecodeResult) (v : VideoFrame),
      d.packets = pk :: rest → pk.payload ≠ none →
      (poll d br).1 = .ok (some (.decoded v)) → pk.streamIndex = d.index) := by
  refine ⟨?_, ?_, ?_, ?_⟩
  · intro h
    unfold push
    simp [h]
  · intro h
    unfold push
    simp [h]
  · intro op hok
    cases op with
    | none => exact hok
    | some q =>
        show queueOK
          (if q.streamIndex = d.index ∨ q.payload = none then
            { d with packets := d.packets ++ [q] } else d)
        split
        · next hq =>
            intro x hx
            rcases List.mem_append.1 hx with hx' | hx'
            · exact hok x hx'
            · rcases List.mem_singleton.1 hx' with rfl
              exact hq
        · exact hok
  · intro hok pk rest br v hfront hpayload _
    rcases hok pk (hfront ▸ List.mem_cons_self pk rest) with h | h
    · exact h
    · exact absurd h hpayload

/-- Witness for the C4 theorem: a matching-stream packet is enqueued, a
foreign payload packet is dropped, and the front own-stream packet of a
well-formed queue is confirmed as the source of a decoded frame. -/
theorem push_stream_filter_witness :
    (push { index := 2, codecContext := none, packets := [],
            nbFrames := 0, isProgressive := true,
            fileFrameNumber := 0 : DecoderImpl }
        (some ⟨2, some [1], 0⟩) =
      { index := 2, codecContext := none, packets := [⟨2, some [1], 0⟩],
        nbFrames := 0, isProgressive := true, fileFrameNumber := 0 }) ∧
    (push { index := 2, codecContext := none, packets := [],
            nbFrames := 0, isProgressive := true,
            fileFrameNumber := 0 : DecoderImpl }
        (some ⟨3, some [1], 0⟩) =
      { index := 2, codecContext := none, packets := [], nbFrames := 0,
        isProgressive := true, fileFrameNumber := 0 }) ∧
    (⟨2, some [1], 4⟩ : AVPacket).streamIndex =
      ({ index := 2, codecContext := some ⟨false, false⟩,
         packets := [⟨2, some [1], 4⟩], nbFrames := 0,
         isProgressive := true,
         fileFrameNumber := 0 : DecoderImpl }).index := by
  refine ⟨?_, ?_, ?_⟩
  · exact (push_stream_filter
      { index := 2, codecContext := none, packets := [], nbFrames := 0,
        isProgressive := true, fileFrameNumber := 0 }
      ⟨2, some [1], 0⟩).1 (Or.inl rfl)
  · exact (push_stream_filter
      { index := 2, codecContext := none, packets := [], nbFrames := 0,
        isProgressive := true, fileFrameNumber := 0 }
      ⟨3, some [1], 0⟩).2.1 (by decide)
  · exact (push_stream_filter
      { index := 2, codecContext := some ⟨false, false⟩,
        packets := [⟨2, some [1], 4⟩], nbFrames := 0,
        isProgressive := true, fileFrameNumber := 0 }
      ⟨2, some [1], 4⟩).2.2.2
      (by intro x hx
          rcases List.mem_singleton.1 hx with rfl
          exact Or.inl rfl)
      ⟨2, some [1], 4⟩ [] (.frame ⟨false, false, 0⟩) ⟨4, false, false⟩
      rfl (by decide) rfl

end FFmpeg

namespace OldCore

/-- C5: `get_pixel_format_desc` yields exactly 1 plane when the canonical
format is packed RGB-family, exactly 3 planes for alpha-less planar
YCbCr, exactly 4 planes for YCbCr with alpha, and an empty plane list
tagged `invalid` for every unsupported native format. -/
theorem plane_descriptor_counts (fmt : PixFmt) (w h : Nat)
    (hw : 0 < w) (hh : 0 < h) :
    ((get_pixel_format fmt = .bgra ∨ get_pixel_format fmt = .argb ∨
      get_pixel_format fmt = .rgba ∨ get_pixel_format fmt = .abgr) →
      (get_pixel_format_desc fmt w h).planes.length = 1) ∧
    (get_pixel_format fmt = .ycbcr →
      (get_pixel_format_desc fmt w h).planes.length = 3) ∧
    (get_pixel_format fmt = .ycbcra →
      (get_pixel_format_desc fmt w h).planes.length = 4) ∧
    (get_pixel_format fmt = .invalid →
      (get_pixel_format_desc fmt w h).planes = [] ∧
      (get_pixel_format_desc fmt w h).pix_fmt = .invalid) := by
  cases fmt <;>
    simp [get_pixel_format, get_pixel_format_desc, avpicture_fill]

/-- Witness for C5 at concrete formats and a positive 720×576 raster. -/
theorem plane_descriptor_counts_witness :
    (get_pixel_format_desc .bgra 720 576).planes.length = 1 ∧
    (get_pixel_format_desc .yuv420p 720 576).planes.length = 3 ∧
    (get_pixel_format_desc .yuva420p 720 576).planes.length = 4 ∧
    (get_pixel_format_desc (.other 123) 720 576).planes = [] := by
  refine ⟨?_, ?_, ?_, ?_⟩
  · exact (plane_descriptor_counts .bgra 720 576 (by decide) (by decide)).1
      (Or.inl rfl)
  · exact (plane_descriptor_counts .yuv420p 720 576 (by decide)
      (by decide)).2.1 rfl
  · exact (plane_descriptor_counts .yuva420p 720 576 (by decide)
      (by decide)).2.2.1 rfl
  · exact ((plane_descriptor_counts (.other 123) 720 576 (by decide)
      (by decide)).2.2.2 rfl).1

/-- C6: construction compares the stream frame time
`time_base.num / time_base.den` against the target frame time `1 / fps`:
a deviation above `0.0001` raises `file_read_error` carrying the frame
time; within tolerance, no `file_read_error` is ever raised (construction
then either succeeds or fails for the separate scaling-context reason). -/
theorem construction_frame_rate_check (codecId : CodecId) (num den : Int)
    (pixFmt : PixFmt) (w h : Nat) (fps : ℚ) (mode : VideoMode) (sws : Bool)
    (hfps : 0 < fps) (hden : 0 < den) :
    (|(num : ℚ) / (den : ℚ) - 1 / fps| > 1 / 10000 →
      mkImplementation codecId num den pixFmt w h fps mode sws =
        .error (.file_read_error ((num : ℚ) / (den : ℚ)))) ∧
    (|(num : ℚ) / (den : ℚ) - 1 / fps| ≤ 1 / 10000 →
      ∀ v : ℚ,
        mkImplementation codecId num den pixFmt w h fps mode sws ≠
          .error (.file_read_error v)) := by
  constructor
  · intro hgt
    unfold mkImplementation
    rw [if_pos hgt]
  · intro hle v
    unfold mkImplementation
    rw [if_neg (not_lt.2 hle)]
    by_cases hd :
        (get_pixel_format_desc pixFmt w h).pix_fmt = pixel_format.invalid <;>
      cases sws <;> simp [hd]

/-- Witness for C6: a 1/50s stream against a 25fps target is rejected with
the offending frame time; a 1/25s stream is accepted. -/
theorem construction_frame_rate_check_witness :
    mkImplementation .dvvideo 1 50 .bgra 720 576 25 .upper false =
      .error (.file_read_error (((1 : Int) : ℚ) / ((50 : Int) : ℚ))) ∧
    mkImplementation .dvvideo 1 25 .bgra 720 576 25 .upper false ≠
      .error (.file_read_error (1 / 50)) := by
  constructor
  · exact (construction_frame_rate_check .dvvideo 1 50 .bgra 720 576 25
      .upper false (by norm_num) (by norm_num)).1
      (by rw [show ((1 : Int) : ℚ) / ((50 : Int) : ℚ) - 1 / 25 = -(1 / 50)
                by norm_num,
              abs_neg, abs_of_pos (by norm_num : (0 : ℚ) < 1 / 50)]
          norm_num)
  · exact (construction_frame_rate_check .dvvideo 1 25 .bgra 720 576 25
      .upper false (by norm_num) (by norm_num)).2
      (by rw [show ((1 : Int) : ℚ) / ((25 : Int) : ℚ) - 1 / 25 = 0
                by norm_num,
              abs_zero]
          norm_num)
      (1 / 50)

/-- C8: on every successful `execute`, the output frame's image
translation is `(0, 1 / height)` exactly when the codec is the legacy DV
family and the output mode is upper-field-first, and is the untouched
default `(0, 0)` for every other codec/mode combination. -/
theorem execute_dv_upper_translation (impl : Implementation)
    (br : Except Unit OldRawFrame) (swsScale : OldRawFrame → List Nat)
    (w : WriteFrame) (hok : execute impl br swsScale = .ok w) :
    (w.translationX, w.translationY) =
      if impl.codecId = .dvvideo ∧ impl.mode = .upper then
        ((0 : ℚ), 1 / (impl.height : ℚ))
      else ((0 : ℚ), (0 : ℚ)) := by
  cases br with
  | error e => simp [execute] at hok
  | ok raw =>
      simp only [execute] at hok
      by_cases hc : impl.codecId = .dvvideo ∧ impl.mode = .upper
      · rw [if_pos hc] at hok
        rw [if_pos hc]
        injection hok with hw
        subst hw
        rfl
      · rw [if_neg hc] at hok
        rw [if_neg hc]
        injection hok with hw
        subst hw
        rfl

/-- Witness for C8: a DV/upper-field decode gets the half-scanline
translation `(0, 1/4)` on a height-4 frame. -/
theorem execute_dv_upper_translation_witness :
    ((⟨[List.replicate 32 7], 0,
        1 / ((4 : Nat) : ℚ)⟩ : WriteFrame).translationX,
      (⟨[List.replicate 32 7], 0,
        1 / ((4 : Nat) : ℚ)⟩ : WriteFrame).translationY) =
      if CodecId.dvvideo = CodecId.dvvideo ∧ VideoMode.upper = .upper then
        ((0 : ℚ), 1 / (((4 : Nat)) : ℚ))
      else ((0 : ℚ), (0 : ℚ)) := by
  exact execute_dv_upper_translation
    { codecId := .dvvideo, width := 2, height := 4, pixFmt := .bgra,
      desc := ⟨.bgra, [⟨2, 4, 4⟩]⟩, usesSws := false, mode := .upper,
      fps := 25 }
    (.ok ⟨[List.replicate 32 7], [8]⟩) (fun _ => [])
    ⟨[List.replicate 32 7], 0, 1 / ((4 : Nat) : ℚ)⟩ rfl

end OldCore

namespace Core

/-- C9: the mutating accessors of a `mixed_frame` fail with
`invalid_operation` on every frame and every argument; no mutated frame is
ever produced, so the stored audio, image payload, tag and format
descriptor are untouched. -/
theorem mixed_frame_mutators_invalid (f : mixed_frame) (index : Int) :
    f.image_data_mut index = .error .invalid_operation ∧
    f.audio_data_mut = .error .invalid_operation :=
  ⟨rfl, rfl⟩

/-- C10: one tick of the orchestrator — whether it completes or falls into
the blank-frame recovery — leaves the blend-mode table exactly as it was;
`set_blend_mode` is the operation that rewrites the table. -/
theorem invoke_preserves_blend_table {σ τ ε : Type} (ops : MixerOps σ τ ε)
    (st : MixerImplState σ τ) (frames : List (Int × Nat))
    (format_desc : video_format_desc) :
    (mixer_invoke ops st frames format_desc).2.blend_modes =
      st.blend_modes ∧
    (∀ (i : Int) (v : blend_mode),
      (mixer_set_blend_mode st i v).blend_modes =
        set_blend_mode_table st.blend_modes i v) := by
  constructor
  · rcases htb : tickBody ops st.blend_modes frames format_desc st.tag
      st.im st.au with ⟨res, s, t⟩
    cases res <;> simp [mixer_invoke, htb]
  · intro i v
    rfl

/-- C3: when the tick body throws at any point of the composition, the
orchestrator's `invoke` returns the empty data frame; `invoke` is total,
so every tick hands back either the blank frame or a composed
`mixed_frame` — no exception crosses the orchestrator boundary. -/
theorem invoke_exception_contained {σ τ ε : Type} (ops : MixerOps σ τ ε)
    (st : MixerImplState σ τ) (frames : List (Int × Nat))
    (format_desc : video_format_desc) :
    (∀ (e : ε) (s : σ) (t : τ),
      tickBody ops st.blend_modes frames format_desc st.tag st.im st.au =
          (.error e, s, t) →
        (mixer_invoke ops st frames format_desc).1 = .empty) ∧
    ((mixer_invoke ops st frames format_desc).1 = .empty ∨
      ∃ mf, (mixer_invoke ops st frames format_desc).1 = .mixed mf) := by
  constructor
  · intro e s t htb
    simp [mixer_invoke, htb]
  · rcases htb : tickBody ops st.blend_modes frames format_desc st.tag
      st.im st.au with ⟨res, s, t⟩
    cases res with
    | error e => exact Or.inl (by simp [mixer_invoke, htb])
    | ok mf => exact Or.inr ⟨mf, by simp [mixer_invoke, htb]⟩

/-- Witness for C3: a layer whose `begin_layer` throws makes the tick
return the empty frame. -/
theorem invoke_exception_contained_witness :
    (mixer_invoke
        (⟨fun _ s => (.error (), s), fun _ t => (.ok (), t),
          fun _ s => (.ok (), s), fun s => (.ok (), s),
          fun _ s => (.ok 0, s), fun _ t => (.ok [], t)⟩ :
            MixerOps Unit Unit Unit)
        ⟨[], 0, (), ()⟩ [(0, 0)] ⟨720, 576, 25⟩).1 = .empty := by
  exact (invoke_exception_contained
      (⟨fun _ s => (.error (), s), fun _ t => (.ok (), t),
        fun _ s => (.ok (), s), fun s => (.ok (), s),
        fun _ s => (.ok 0, s), fun _ t => (.ok [], t)⟩ :
          MixerOps Unit Unit Unit)
      ⟨[], 0, (), ()⟩ [(0, 0)] ⟨720, 576, 25⟩).1 () () () rfl

/-- An image mixer whose state records the blend mode of every
`begin_layer` bracket, used to observe which operator each layer is
composited with. -/
def recordingOps : MixerOps (List blend_mode) Unit Empty where
  begin_layer := fun m s => (.ok (), s ++ [m])
  accept_audio := fun _ t => (.ok (), t)
  accept_image := fun _ s => (.ok (), s)
  end_layer := fun s => (.ok (), s)
  mix_image := fun _ s => (.ok 0, s)
  mix_audio := fun _ t => (.ok [], t)

/-- Under the recording instrumentation, visiting the layers appends, in
order, exactly the blend mode resolved from the table (table hit, or
`normal` when absent) for each layer. -/
theorem visitLayers_recording (bm : List (Int × blend_mode))
    (frames : List (Int × Nat)) (s : List blend_mode) (u : Unit) :
    visitLayers recordingOps bm frames s u =
      (.ok (),
       s ++ frames.map (fun p => (findBlendMode bm p.1).getD .normal),
       u) := by
  induction frames generalizing s with
  | nil =>
      cases u
      simp [visitLayers]
  | cons p rest ih =>
      cases u
      have hstep : visitLayers recordingOps bm (p :: rest) s () =
          visitLayers recordingOps bm rest
            (s ++ [(findBlendMode bm p.1).getD .normal]) () := by
        rcases p with ⟨idx, fr⟩
        rfl
      rw [hstep, ih]
      simp

/-- Looking up an index right after `set_blend_mode`'s insert path finds
the new value. -/
theorem findBlendMode_append_none (bm : List (Int × blend_mode)) (i : Int)
    (X : blend_mode) (h : findBlendMode bm i = none) :
    findBlendMode (bm ++ [(i, X)]) i = some X := by
  induction bm with
  | nil => simp [findBlendMode]
  | cons p rest ih =>
      rcases p with ⟨k, v⟩
      rw [List.cons_append]
      rw [findBlendMode] at h ⊢
      by_cases hk : k = i
      · rw [if_pos hk] at h
        exact absurd h (by simp)
      · rw [if_neg hk] at h ⊢
        exact ih h

/-- Looking up an index right after `set_blend_mode`'s overwrite path
finds the new value. -/
theorem findBlendMode_update_some (bm : List (Int × blend_mode)) (i : Int)
    (X v : blend_mode) (h : findBlendMode bm i = some v) :
    findBlendMode
        (bm.map fun p => if p.1 = i then (p.1, X) else p) i = some X := by
  induction bm with
  | nil => simp [findBlendMode] at h
  | cons p rest ih =>
      rcases p with ⟨k, w⟩
      rw [List.map_cons]
      by_cases hk : k = i
      · have hh : (if (k, w).1 = i then ((k, w).1, X) else (k, w)) =
            (k, X) := by
          simp [hk]
        rw [hh, findBlendMode, if_pos hk]
      · have hh : (if (k, w).1 = i then ((k, w).1, X) else (k, w)) =
            (k, w) := by
          simp [hk]
        rw [hh, findBlendMode, if_neg hk]
        rw [findBlendMode, if_neg hk] at h
        exact ih h

/-- After either path of `set_blend_mode_table`, the index maps to the new
value. -/
theorem findBlendMode_set (bm : List (Int × blend_mode)) (i : Int)
    (X : blend_mode) :
    findBlendMode (set_blend_mode_table bm i X) i = some X := by
  unfold set_blend_mode_table
  cases h : findBlendMode bm i with
  | none => exact findBlendMode_append_none bm i X h
  | some v => exact findBlendMode_update_some bm i X v h

/-- C7: after `set_blend_mode(i, X)` is applied on the serialized queue, a
subsequent `invoke` composites every layer with the mode resolved from the
updated table — so layer `i` with `X`, never a stale prior mode — and any
index absent from the table resolves to the default `normal`. -/
theorem set_blend_mode_then_invoke
    (st : MixerImplState (List blend_mode) Unit)
    (frames : List (Int × Nat)) (i : Int) (X : blend_mode)
    (format_desc : video_format_desc) :
    ((mixer_invoke recordingOps (mixer_set_blend_mode st i X) frames
        format_desc).2.im =
      st.im ++ frames.map (fun p =>
        (findBlendMode (set_blend_mode_table st.blend_modes i X) p.1).getD
          .normal)) ∧
    ((findBlendMode (set_blend_mode_table st.blend_modes i X) i).getD
        .normal = X) ∧
    (∀ j, findBlendMode st.blend_modes j = none →
      (findBlendMode st.blend_modes j).getD .normal = .normal) := by
  refine ⟨?_, ?_, ?_⟩
  · simp only [mixer_set_blend_mode, mixer_invoke, tickBody]
    rw [visitLayers_recording]
    simp [recordingOps]
  · rw [findBlendMode_set]
    rfl
  · intro j hj
    rw [hj]
    rfl

/-- Witness for C7: setting layer 0's mode then invoking composites layer
0 with the new mode, and a missing index resolves to `normal`. -/
theorem set_blend_mode_then_invoke_witness :
    ((mixer_invoke recordingOps
        (mixer_set_blend_mode ⟨[(0, .other 5)], 0, [], ()⟩ 0 (.other 9))
        [(0, 3)] ⟨720, 576, 25⟩).2.im = [blend_mode.other 9]) ∧
    ((findBlendMode (set_blend_mode_table [(0, .other 5)] 0 (.other 9))
        0).getD .normal = .other 9) ∧
    ((findBlendMode [((0 : Int), blend_mode.other 5)] 1).getD .normal =
      .normal) := by
  have h := set_blend_mode_then_invoke ⟨[(0, .other 5)], 0, [], ()⟩
    [(0, 3)] 0 (.other 9) ⟨720, 576, 25⟩
  refine ⟨?_, h.2.1, h.2.2 1 rfl⟩
  rw [h.1]
  rfl

end Core

end Caspar
